import Mathlib

/-!
# Cache-aside user service (`server.js`)

A shallow embedding of the two request handlers of `server.js`
(`GET /users/:id` and `PUT /users/:id`) over an explicit state made of the
SQLite table `users` and the Redis keyspace, followed by theorems about the
cache-consistency protocol they implement.

What the program takes from its libraries is a parameter (`Env`): the way
SQLite compares the `INTEGER PRIMARY KEY` column with the text bound to `?`,
`JSON.stringify`, `JSON.parse` and `Number`.  A failure of a store or cache
operation is an input as well (`Faults`).
-/

namespace Caching

/-! ## Data model -/

/-- JavaScript values that reach a response body or come out of `JSON.parse`.
A number with an integral value is `num`; every other double (fractions, the
infinities, NaN) is `float`, given by its bit pattern. -/
inductive JsVal where
  | null
  | bool (b : Bool)
  | num (n : Int)
  | float (bits : Nat)
  | str (s : String)
  | arr (items : List JsVal)
  | obj (fields : List (String × JsVal))

/-- A row of `users (id INTEGER PRIMARY KEY, name TEXT, email TEXT)`. -/
structure Row where
  id : Int
  name : String
  email : String
deriving DecidableEq, Repr

/-- The object `SELECT *` hands to the callback for a row: `{id, name, email}`. -/
def Row.toJs (r : Row) : JsVal :=
  .obj [("id", .num r.id), ("name", .str r.name), ("email", .str r.email)]

/-- The table `users`: its rows, in rowid order. -/
abbrev Db := List Row

/-- A Redis entry: the stored text and the `EX` lifetime it was written with. -/
structure Entry where
  value : String
  ex : Nat
deriving DecidableEq, Repr

/-- The Redis keyspace. -/
abbrev Cache := String → Option Entry

/-- The two stores the handlers close over (`db` and `redisClient`). -/
structure World where
  db : Db
  cache : Cache

/-- Library behaviour the handlers rely on.
* `sqlEq k s`: the SQL comparison `id = ?` for a row whose key is `k` and the
  text `s` bound to the placeholder;
* `stringify`, `parse`: `JSON.stringify` and `JSON.parse` (`none` when it throws);
* `Number`: the conversion applied to the path parameter in the `PUT` response. -/
structure Env where
  sqlEq : Int → String → Bool
  stringify : JsVal → String
  parse : String → Option JsVal
  Number : String → JsVal

/-- Which store or cache operation fails during the request being handled.
Each handler issues each operation at most once. -/
structure Faults where
  redisGet : Bool
  dbGet : Bool
  redisSet : Bool
  dbRun : Bool
  redisDel : Bool
deriving DecidableEq, Repr

/-- No operation fails. -/
def Faults.none : Faults := ⟨false, false, false, false, false⟩

/-- What was thrown, or passed as `err` to a callback. -/
inductive Err where
  | redis
  | sqlite
deriving DecidableEq, Repr

/-- A call issued to one of the two stores. -/
inductive Call where
  | redisGet (key : String)
  | dbGet (id : String)
  | redisSet (key value : String) (ex : Nat)
  | dbRun (name email id : String)
  | redisDel (key : String)
deriving DecidableEq, Repr

/-- An HTTP response: status code and the value passed to `res.json`. -/
structure Response where
  status : Nat
  body : JsVal

/-- The result of handling one request: the response, the calls issued to the
stores in order, and the stores afterwards. -/
structure Outcome where
  res : Response
  calls : List Call
  world : World

/-! ## Store and cache operations -/

/-- Writing an entry into the keyspace. -/
def Cache.set (c : Cache) (key : String) (e : Entry) : Cache :=
  fun k => if k = key then some e else c k

/-- Removing a key from the keyspace. -/
def Cache.del (c : Cache) (key : String) : Cache :=
  fun k => if k = key then Option.none else c k

/-- The empty keyspace. -/
def Cache.empty : Cache := fun _ => Option.none

/-- `redisClient.get(key)`: the stored text, or `null`. -/
def redisGet (f : Faults) (c : Cache) (key : String) : Except Err (Option String) :=
  if f.redisGet then .error .redis else .ok ((c key).map Entry.value)

/-- `redisClient.set(key, value, { EX: ex })`. -/
def redisSet (f : Faults) (c : Cache) (key value : String) (ex : Nat) : Except Err Cache :=
  if f.redisSet then .error .redis else .ok (c.set key ⟨value, ex⟩)

/-- `redisClient.del(key)`. -/
def redisDel (f : Faults) (c : Cache) (key : String) : Except Err Cache :=
  if f.redisDel then .error .redis else .ok (c.del key)

/-- `getUserFromDB(id)`: `SELECT * FROM users WHERE id = ?`, resolving with the
first matching row or `undefined`, rejecting on a store error. -/
def getUserFromDB (env : Env) (f : Faults) (db : Db) (id : String) : Except Err (Option Row) :=
  if f.dbGet then .error .sqlite else .ok (db.find? (fun r => env.sqlEq r.id id))

/-- `db.run('UPDATE users SET name = ?, email = ? WHERE id = ?', [name, email, id])`:
the table afterwards and `this.changes`, or the error given to the callback. -/
def dbRun (env : Env) (f : Faults) (db : Db) (name email id : String) : Except Err (Db × Nat) :=
  if f.dbRun then .error .sqlite
  else .ok (db.map (fun r => if env.sqlEq r.id id then { r with name := name, email := email } else r),
            db.countP (fun r => env.sqlEq r.id id))

/-! ## The handlers -/

/-- The cache key of a path parameter: the template `user:${id}`. -/
def cacheKey (id : String) : String := "user:" ++ id

/-- The object `{ error: msg }`. -/
def errorBody (msg : String) : JsVal := .obj [("error", .str msg)]

/-- The response of the `catch` block of the `GET` handler. -/
def internalServerError : Response := ⟨500, errorBody "Internal Server Error"⟩

/-- The response `res.status(404).json({ error: 'User not found' })`. -/
def userNotFound : Response := ⟨404, errorBody "User not found"⟩

/-- The `GET` handler after its cache lookup came back falsy: fetch from the
table, answer 404 when there is no row, otherwise write the row to the cache
with `EX: 60` and answer with it.  Any rejection ends in the `catch` block. -/
def cacheMiss (env : Env) (f : Faults) (id : String) (w : World) : Outcome :=
  match getUserFromDB env f w.db id with
  | .error _ => ⟨internalServerError, [.redisGet (cacheKey id), .dbGet id], w⟩
  | .ok Option.none => ⟨userNotFound, [.redisGet (cacheKey id), .dbGet id], w⟩
  | .ok (some user) =>
    match redisSet f w.cache (cacheKey id) (env.stringify user.toJs) 60 with
    | .error _ =>
      ⟨internalServerError,
        [.redisGet (cacheKey id), .dbGet id, .redisSet (cacheKey id) (env.stringify user.toJs) 60], w⟩
    | .ok c =>
      ⟨⟨200, user.toJs⟩,
        [.redisGet (cacheKey id), .dbGet id, .redisSet (cacheKey id) (env.stringify user.toJs) 60],
        ⟨w.db, c⟩⟩

/-- The handler `app.get('/users/:id', ...)`.  The test `if (cachedUser)` is
JavaScript truthiness: `null` and the empty text are both falsy. -/
def getUser (env : Env) (f : Faults) (id : String) (w : World) : Outcome :=
  match redisGet f w.cache (cacheKey id) with
  | .error _ => ⟨internalServerError, [.redisGet (cacheKey id)], w⟩
  | .ok Option.none => cacheMiss env f id w
  | .ok (some cachedUser) =>
    if cachedUser = "" then cacheMiss env f id w
    else
      match env.parse cachedUser with
      | some v => ⟨⟨200, v⟩, [.redisGet (cacheKey id)], w⟩
      | Option.none => ⟨internalServerError, [.redisGet (cacheKey id)], w⟩

/-- The handler `app.put('/users/:id', ...)`, for a body whose `name` and `email`
are texts.  The cache delete sits in its own `try`/`catch`, which only logs. -/
def putUser (env : Env) (f : Faults) (id name email : String) (w : World) : Outcome :=
  match dbRun env f w.db name email id with
  | .error _ => ⟨⟨500, errorBody "DB error"⟩, [.dbRun name email id], w⟩
  | .ok (db, changes) =>
    if changes = 0 then ⟨userNotFound, [.dbRun name email id], ⟨db, w.cache⟩⟩
    else
      match redisDel f w.cache (cacheKey id) with
      | .error _ =>
        ⟨⟨200, .obj [("id", env.Number id), ("name", .str name), ("email", .str email)]⟩,
          [.dbRun name email id, .redisDel (cacheKey id)], ⟨db, w.cache⟩⟩
      | .ok c =>
        ⟨⟨200, .obj [("id", env.Number id), ("name", .str name), ("email", .str email)]⟩,
          [.dbRun name email id, .redisDel (cacheKey id)], ⟨db, c⟩⟩

/-! ## A sample deployment -/

/-- First row inserted at start-up. -/
def alice : Row := ⟨1, "Alice", "alice@example.com"⟩

/-- Second row inserted at start-up. -/
def bob : Row := ⟨2, "Bob", "bob@example.com"⟩

/-- The table after start-up. -/
def seedDb : Db := [alice, bob]

/-- Value of a run of decimal digits, most significant first. -/
def decimal (acc : Nat) : List Char → Option Nat
  | [] => some acc
  | c :: cs => if c.isDigit then decimal (10 * acc + (c.toNat - 48)) cs else Option.none

/-- Value of a non-empty text made of decimal digits only. -/
def decimalText (s : String) : Option Nat :=
  if s = "" then Option.none else decimal 0 s.data

/-- The path parameter is a text and `id` is an `INTEGER PRIMARY KEY`: SQLite
gives the bound text NUMERIC affinity before comparing, so `'1'`, `'01'` and
`'001'` all equal the key 1 (without that conversion no request would find a
row at all).  This sample comparison is SQLite's on texts made of decimal
digits, the only ones the examples use; on other texts it answers false. -/
def sampleSqlEq (k : Int) (s : String) : Bool :=
  decide (0 ≤ k) && decimalText s == some k.toNat

/-- `JSON.stringify` on row objects whose texts need no escaping. -/
def sampleStringify : JsVal → String
  | .obj [("id", .num n), ("name", .str a), ("email", .str b)] =>
    "\x7b\"id\":" ++ toString n ++ ",\"name\":\"" ++ a ++ "\",\"email\":\"" ++ b ++ "\"\x7d"
  | _ => "null"

/-- `JSON.parse` on the serialised start-up rows; every other text used with
this sample (the empty text, `oops`) is one `JSON.parse` rejects too. -/
def sampleParse (s : String) : Option JsVal :=
  if s = sampleStringify alice.toJs then some alice.toJs
  else if s = sampleStringify bob.toJs then some bob.toJs
  else Option.none

/-- `Number` on texts made of decimal digits; NaN elsewhere. -/
def sampleNumber (s : String) : JsVal :=
  match decimalText s with
  | some n => .num n
  | Option.none => .float 0x7ff8000000000000

/-- The sample library behaviour. -/
def sampleEnv : Env := ⟨sampleSqlEq, sampleStringify, sampleParse, sampleNumber⟩

/-- The stores right after start-up: seeded table, empty cache. -/
def seedWorld : World := ⟨seedDb, Cache.empty⟩

/-- A cache whose entry for id 1 is the empty text. -/
def emptyTextWorld : World := ⟨seedDb, Cache.empty.set "user:1" ⟨"", 60⟩⟩

/-- A cache whose entry for id 1 is a text that is not JSON. -/
def garbledWorld : World := ⟨seedDb, Cache.empty.set "user:1" ⟨"oops", 60⟩⟩

/-- A cache holding the serialised first row under `user:1`. -/
def warmWorld : World := ⟨seedDb, Cache.empty.set "user:1" ⟨sampleStringify alice.toJs, 60⟩⟩

/-- Only the cache lookup fails. -/
def redisGetDown : Faults := ⟨true, false, false, false, false⟩

/-- Only the `SELECT` fails. -/
def dbGetDown : Faults := ⟨false, true, false, false, false⟩

/-- Only the cache write fails. -/
def redisSetDown : Faults := ⟨false, false, true, false, false⟩

/-- Only the `UPDATE` fails. -/
def dbRunDown : Faults := ⟨false, false, false, true, false⟩

/-- Only the cache delete fails. -/
def redisDelDown : Faults := ⟨false, false, false, false, true⟩

/-! ## Sequential runs -/

/-- One event of a sequential run: a `GET`, a `PUT`, or the expiry of a key
(Redis dropping an entry whose lifetime is over). -/
inductive Req where
  | get (id : String)
  | put (id name email : String)
  | expire (key : String)
deriving DecidableEq, Repr

/-- The stores after one event, no operation failing. -/
def step (env : Env) (w : World) : Req → World
  | .get id => (getUser env Faults.none id w).world
  | .put id name email => (putUser env Faults.none id name email w).world
  | .expire key => ⟨w.db, w.cache.del key⟩

/-- The stores after a sequence of events handled one after the other. -/
def run (env : Env) (w : World) (reqs : List Req) : World :=
  reqs.foldl (step env) w

/-- Every present entry `user:` + id is the serialisation of the row the table
currently returns for id. -/
def Coherent (env : Env) (w : World) : Prop :=
  ∀ id e, w.cache (cacheKey id) = some e →
    ∃ r, w.db.find? (fun r => env.sqlEq r.id id) = some r ∧ e.value = env.stringify r.toJs

/-- No row answers to two different path parameters. -/
def Unaliased (env : Env) : Prop :=
  ∀ k a b, env.sqlEq k a = true → env.sqlEq k b = true → a = b

/-- A read of id 1, then a write addressed to the same row as `01`. -/
def aliasedRun : List Req := [.get "1", .put "01" "Alicia" "alicia@x.com"]

/-! # Theorems -/

/-! ## Lemmas on the table and the key -/

theorem map_update_eq_self (p : Row → Bool) (g : Row → Row) (db : Db)
    (h : db.countP p = 0) : db.map (fun r => if p r then g r else r) = db := by
  rw [List.countP_eq_zero] at h
  induction db with
  | nil => rfl
  | cons r rs ih =>
    have hr : ¬ p r = true := h r (List.mem_cons_self r rs)
    have hrs : ∀ a ∈ rs, ¬ p a = true := fun a ha => h a (List.mem_cons_of_mem r ha)
    simp [hr, ih hrs]

theorem countP_ne_zero_of_find? (p : Row → Bool) (db : Db) (r : Row)
    (h : db.find? p = some r) : db.countP p ≠ 0 := by
  have hm := List.mem_of_find?_eq_some h
  have hp := List.find?_some h
  intro h0
  rw [List.countP_eq_zero] at h0
  exact h0 r hm hp

theorem find?_map_update (p q : Row → Bool) (g : Row → Row) (hg : ∀ r, p (g r) = p r)
    (db : Db) :
    (db.map (fun r => if q r then g r else r)).find? p
      = (db.find? p).map (fun r => if q r then g r else r) := by
  induction db with
  | nil => rfl
  | cons r rs ih =>
    by_cases hp : p r = true
    · by_cases hq : q r = true
      · simp [List.find?_cons, hp, hq, hg]
      · simp [List.find?_cons, hp, hq]
    · by_cases hq : q r = true
      · simp [List.find?_cons, hp, hq, hg, ih]
      · simp [List.find?_cons, hp, hq, ih]

/-- The table an `UPDATE` addressed to `id` leaves behind. -/
theorem dbRun_eq (env : Env) (f : Faults) (db : Db) (name email id : String)
    (hf : f.dbRun = false) :
    dbRun env f db name email id =
      .ok (db.map (fun r => if env.sqlEq r.id id then ⟨r.id, name, email⟩ else r),
           db.countP (fun r => env.sqlEq r.id id)) := by
  simp [dbRun, hf]

/-- After an `UPDATE` addressed to `id`, the `SELECT` for `id` returns the
row it returned before with the new `name` and `email`. -/
theorem find?_after_update (env : Env) (db : Db) (name email id : String) (r : Row)
    (h : db.find? (fun r => env.sqlEq r.id id) = some r) :
    (db.map (fun r => if env.sqlEq r.id id then (⟨r.id, name, email⟩ : Row) else r)).find?
        (fun r => env.sqlEq r.id id) = some ⟨r.id, name, email⟩ := by
  have hp := List.find?_some h
  rw [find?_map_update (fun r => env.sqlEq r.id id) (fun r => env.sqlEq r.id id)
    (fun r => ⟨r.id, name, email⟩) (fun _ => rfl) db, h]
  simp at hp
  simp [hp]

/-- After an `UPDATE` addressed to `a`, the `SELECT` for an id that shares no
row with `a` returns what it returned before. -/
theorem find?_after_other_update (env : Env) (db : Db) (name email a id : String) (r : Row)
    (h : db.find? (fun r => env.sqlEq r.id id) = some r) (hra : env.sqlEq r.id a = false) :
    (db.map (fun r => if env.sqlEq r.id a then (⟨r.id, name, email⟩ : Row) else r)).find?
        (fun r => env.sqlEq r.id id) = some r := by
  rw [find?_map_update (fun r => env.sqlEq r.id id) (fun r => env.sqlEq r.id a)
    (fun r => ⟨r.id, name, email⟩) (fun _ => rfl) db, h]
  simp [hra]

theorem cacheKey_injective : Function.Injective cacheKey := by
  intro a b h
  have hd : (cacheKey a).data = (cacheKey b).data := by rw [h]
  simp only [cacheKey, String.data_append] at hd
  exact String.ext (List.append_cancel_left hd)

theorem cacheKey_ne {a b : String} (h : a ≠ b) : cacheKey b ≠ cacheKey a :=
  fun hk => h (cacheKey_injective hk).symm

/-- The lookup returning `null` means the key is absent. -/
theorem redisGet_none (f : Faults) (c : Cache) (key : String)
    (h : redisGet f c key = .ok Option.none) : c key = Option.none := by
  unfold redisGet at h
  split at h
  · cases h
  · simpa using h

/-- The cache after a `GET` is the cache before, or the cache before with one
entry written under the key of the request. -/
theorem getUser_cache (env : Env) (f : Faults) (id : String) (w : World) :
    (getUser env f id w).world = w ∨
    ∃ user, w.db.find? (fun r => env.sqlEq r.id id) = some user ∧
      (getUser env f id w).world =
        ⟨w.db, w.cache.set (cacheKey id) ⟨env.stringify user.toJs, 60⟩⟩ := by
  have miss : (cacheMiss env f id w).world = w ∨
      ∃ user, w.db.find? (fun r => env.sqlEq r.id id) = some user ∧
        (cacheMiss env f id w).world =
          ⟨w.db, w.cache.set (cacheKey id) ⟨env.stringify user.toJs, 60⟩⟩ := by
    unfold cacheMiss getUserFromDB redisSet
    by_cases h1 : f.dbGet = true
    · simp [h1]
    · cases hfind : w.db.find? (fun r => env.sqlEq r.id id) with
      | none => simp [h1, hfind]
      | some user =>
        by_cases h2 : f.redisSet = true
        · simp [h1, hfind, h2]
        · simp [h1, hfind, h2]
  unfold getUser redisGet
  by_cases h0 : f.redisGet = true
  · simp [h0]
  · cases hc : w.cache (cacheKey id) with
    | none => simpa [h0, hc] using miss
    | some e =>
      by_cases he : e.value = ""
      · simpa [h0, hc, he] using miss
      · cases hp : env.parse e.value with
        | none => simp [h0, hc, he, hp]
        | some v => simp [h0, hc, he, hp]

/-- The stores after a `PUT`: unchanged, or the table updated and the cache
either left alone or with the key of the request deleted. -/
theorem putUser_world (env : Env) (f : Faults) (id name email : String) (w : World) :
    (putUser env f id name email w).world = w ∨
    (w.db.countP (fun r => env.sqlEq r.id id) ≠ 0 ∧ f.dbRun = false ∧
      ((putUser env f id name email w).world =
          ⟨w.db.map (fun r => if env.sqlEq r.id id then ⟨r.id, name, email⟩ else r), w.cache⟩ ∧
          f.redisDel = true ∨
       (putUser env f id name email w).world =
          ⟨w.db.map (fun r => if env.sqlEq r.id id then ⟨r.id, name, email⟩ else r),
            w.cache.del (cacheKey id)⟩ ∧ f.redisDel = false)) := by
  by_cases h1 : f.dbRun = true
  · simp [putUser, dbRun, h1]
  · have h1f : f.dbRun = false := by simpa using h1
    by_cases hn : w.db.countP (fun r => env.sqlEq r.id id) = 0
    · left
      have := map_update_eq_self (fun r => env.sqlEq r.id id) (fun r => ⟨r.id, name, email⟩) w.db hn
      simp [putUser, dbRun_eq env f w.db name email id h1f, hn, this]
    · right
      by_cases h2 : f.redisDel = true
      · simp [putUser, dbRun_eq env f w.db name email id h1f, hn, redisDel, h2, h1f]
      · simp [putUser, dbRun_eq env f w.db name email id h1f, hn, redisDel, h2, h1f]

/-- The miss path when the row exists and the cache write goes through. -/
theorem getUser_of_miss (env : Env) (f : Faults) (id : String) (w : World) (user : Row)
    (hget : redisGet f w.cache (cacheKey id) = .ok Option.none)
    (hdb : getUserFromDB env f w.db id = .ok (some user))
    (hset : f.redisSet = false) :
    getUser env f id w =
      ⟨⟨200, user.toJs⟩,
        [.redisGet (cacheKey id), .dbGet id,
         .redisSet (cacheKey id) (env.stringify user.toJs) 60],
        ⟨w.db, w.cache.set (cacheKey id) ⟨env.stringify user.toJs, 60⟩⟩⟩ := by
  simp [getUser, cacheMiss, hget, hdb, redisSet, hset]

/-! ## Read path -/

/-- C1, as stated, fails: with the empty text cached under `user:1` the cache
holds a value for id 1, yet the handler takes the miss path, calls
`getUserFromDB` and writes the cache; and with a cached text that is not JSON
it answers 500 instead of a deserialised value. -/
theorem getUser_cached_value_not_served :
    emptyTextWorld.cache (cacheKey "1") = some ⟨"", 60⟩ ∧
    redisGet Faults.none emptyTextWorld.cache (cacheKey "1") = .ok (some "") ∧
    (getUser sampleEnv Faults.none "1" emptyTextWorld).calls =
      [.redisGet "user:1", .dbGet "1", .redisSet "user:1" (sampleStringify alice.toJs) 60] ∧
    (getUser sampleEnv Faults.none "1" emptyTextWorld).world.cache "user:1" =
      some ⟨sampleStringify alice.toJs, 60⟩ ∧
    garbledWorld.cache (cacheKey "1") = some ⟨"oops", 60⟩ ∧
    (getUser sampleEnv Faults.none "1" garbledWorld).res =
      ⟨500, .obj [("error", .str "Internal Server Error")]⟩ :=
  ⟨rfl, rfl, by decide, rfl, rfl, rfl⟩

/-- C1 (amended): when the cache lookup returns a non-empty text that
`JSON.parse` accepts under `user:` + id, the handler responds 200 with the
parsed value, its only call is that lookup (no `getUserFromDB`, no cache
write), and both stores are left as they were. -/
theorem getUser_cache_hit (env : Env) (f : Faults) (id : String) (w : World) (v : String)
    (j : JsVal) (hget : redisGet f w.cache (cacheKey id) = .ok (some v)) (hv : v ≠ "")
    (hj : env.parse v = some j) :
    (getUser env f id w).res = ⟨200, j⟩ ∧
    (getUser env f id w).calls = [.redisGet (cacheKey id)] ∧
    (getUser env f id w).world = w := by
  simp [getUser, hget, hv, hj]

/-- Witness for C1 (amended): the serialised first row cached under `user:1`. -/
theorem getUser_cache_hit_witness :
    (getUser sampleEnv Faults.none "1" warmWorld).res = ⟨200, alice.toJs⟩ ∧
    (getUser sampleEnv Faults.none "1" warmWorld).calls = [.redisGet (cacheKey "1")] ∧
    (getUser sampleEnv Faults.none "1" warmWorld).world = warmWorld :=
  getUser_cache_hit sampleEnv Faults.none "1" warmWorld (sampleStringify alice.toJs) alice.toJs
    rfl (by decide) rfl

/-- C2: on a miss for an id whose row exists, with no failing operation, the
handler writes `JSON.stringify` of exactly the fetched row under `user:` + id
with `EX` 60, responds 200 with that row, and leaves the table alone. -/
theorem getUser_miss_fills_cache (env : Env) (f : Faults) (id : String) (w : World) (user : Row)
    (hget : redisGet f w.cache (cacheKey id) = .ok Option.none)
    (hdb : getUserFromDB env f w.db id = .ok (some user))
    (hset : f.redisSet = false) :
    (getUser env f id w).res = ⟨200, user.toJs⟩ ∧
    (getUser env f id w).calls =
      [.redisGet (cacheKey id), .dbGet id,
       .redisSet (cacheKey id) (env.stringify user.toJs) 60] ∧
    (getUser env f id w).world.cache (cacheKey id) = some ⟨env.stringify user.toJs, 60⟩ ∧
    (getUser env f id w).world.db = w.db := by
  rw [getUser_of_miss env f id w user hget hdb hset]
  simp [Cache.set]

/-- Witness for C2 on the seeded table with an empty cache. -/
theorem getUser_miss_fills_cache_witness :
    (getUser sampleEnv Faults.none "1" seedWorld).res = ⟨200, alice.toJs⟩ ∧
    (getUser sampleEnv Faults.none "1" seedWorld).calls =
      [.redisGet (cacheKey "1"), .dbGet "1",
       .redisSet (cacheKey "1") (sampleEnv.stringify alice.toJs) 60] ∧
    (getUser sampleEnv Faults.none "1" seedWorld).world.cache (cacheKey "1") =
      some ⟨sampleEnv.stringify alice.toJs, 60⟩ ∧
    (getUser sampleEnv Faults.none "1" seedWorld).world.db = seedWorld.db :=
  getUser_miss_fills_cache sampleEnv Faults.none "1" seedWorld alice
    rfl rfl rfl

/-- C3: for an id with no cache entry and no row, the handler responds 404
with `{error: "User not found"}`, writes nothing (its calls are the lookup and
the `SELECT`), leaves both stores unchanged, and no entry exists for the id
afterwards. -/
theorem getUser_absent_not_cached (env : Env) (f : Faults) (id : String) (w : World)
    (hget : redisGet f w.cache (cacheKey id) = .ok Option.none)
    (hdb : getUserFromDB env f w.db id = .ok Option.none) :
    (getUser env f id w).res = ⟨404, .obj [("error", .str "User not found")]⟩ ∧
    (getUser env f id w).calls = [.redisGet (cacheKey id), .dbGet id] ∧
    (getUser env f id w).world = w ∧
    (getUser env f id w).world.cache (cacheKey id) = Option.none := by
  have hc := redisGet_none f w.cache (cacheKey id) hget
  simp [getUser, cacheMiss, hget, hdb, hc, userNotFound, errorBody]

/-- Witness for C3: no row answers to `7`. -/
theorem getUser_absent_not_cached_witness :
    (getUser sampleEnv Faults.none "7" seedWorld).res =
      ⟨404, .obj [("error", .str "User not found")]⟩ ∧
    (getUser sampleEnv Faults.none "7" seedWorld).calls = [.redisGet (cacheKey "7"), .dbGet "7"] ∧
    (getUser sampleEnv Faults.none "7" seedWorld).world = seedWorld ∧
    (getUser sampleEnv Faults.none "7" seedWorld).world.cache (cacheKey "7") = Option.none :=
  getUser_absent_not_cached sampleEnv Faults.none "7" seedWorld rfl rfl

/-! ## Write path -/

/-- C4: for an id whose row exists, with no failing operation, `PUT` responds
200 with `{id: Number(id), name, email}`, the row the table returns for the id
now carries the supplied name and email, and the key `user:` + id is absent;
the `GET` that follows misses the cache, fetches from the table, responds 200
with the updated row and writes its serialisation back under the key. -/
theorem putUser_then_getUser (env : Env) (id name email : String) (w : World) (r : Row)
    (hrow : w.db.find? (fun r => env.sqlEq r.id id) = some r) :
    (putUser env Faults.none id name email w).res =
      ⟨200, .obj [("id", env.Number id), ("name", .str name), ("email", .str email)]⟩ ∧
    (putUser env Faults.none id name email w).world.db.find? (fun r => env.sqlEq r.id id) =
      some ⟨r.id, name, email⟩ ∧
    (putUser env Faults.none id name email w).world.cache (cacheKey id) = Option.none ∧
    (getUser env Faults.none id (putUser env Faults.none id name email w).world).calls =
      [.redisGet (cacheKey id), .dbGet id,
       .redisSet (cacheKey id) (env.stringify (Row.toJs ⟨r.id, name, email⟩)) 60] ∧
    (getUser env Faults.none id (putUser env Faults.none id name email w).world).res =
      ⟨200, Row.toJs ⟨r.id, name, email⟩⟩ ∧
    (getUser env Faults.none id (putUser env Faults.none id name email w).world).world.cache
      (cacheKey id) = some ⟨env.stringify (Row.toJs ⟨r.id, name, email⟩), 60⟩ := by
  have hn := countP_ne_zero_of_find? _ _ _ hrow
  have hfind := find?_after_update env w.db name email id r hrow
  have hput : putUser env Faults.none id name email w =
      ⟨⟨200, .obj [("id", env.Number id), ("name", .str name), ("email", .str email)]⟩,
        [.dbRun name email id, .redisDel (cacheKey id)],
        ⟨w.db.map (fun r => if env.sqlEq r.id id then ⟨r.id, name, email⟩ else r),
          w.cache.del (cacheKey id)⟩⟩ := by
    unfold putUser
    rw [dbRun_eq env Faults.none w.db name email id rfl]
    simp [hn, redisDel, Faults.none]
  rw [hput]
  refine ⟨rfl, hfind, by simp [Cache.del], ?_⟩
  have hmiss := getUser_of_miss env Faults.none id
    ⟨w.db.map (fun r => if env.sqlEq r.id id then ⟨r.id, name, email⟩ else r),
      w.cache.del (cacheKey id)⟩ ⟨r.id, name, email⟩
    (by simp [redisGet, Faults.none, Cache.del])
    (by simp [getUserFromDB, Faults.none, hfind]) rfl
  rw [hmiss]
  exact ⟨rfl, rfl, by simp [Cache.set]⟩

/-- Witness for C4 on the seeded table. -/
theorem putUser_then_getUser_witness :
    (putUser sampleEnv Faults.none "1" "Alicia" "alicia@x.com" seedWorld).res =
      ⟨200, .obj [("id", .num 1), ("name", .str "Alicia"), ("email", .str "alicia@x.com")]⟩ ∧
    (getUser sampleEnv Faults.none "1"
        (putUser sampleEnv Faults.none "1" "Alicia" "alicia@x.com" seedWorld).world).res =
      ⟨200, Row.toJs ⟨1, "Alicia", "alicia@x.com"⟩⟩ :=
  have h := putUser_then_getUser sampleEnv "1" "Alicia" "alicia@x.com" seedWorld alice rfl
  ⟨h.1, h.2.2.2.2.1⟩

/-- C5: when the `UPDATE` matches no row (`this.changes` is 0), `PUT` responds
404, its only call is the `UPDATE` (no `DEL`), and the table and the cache are
unchanged. -/
theorem putUser_no_row (env : Env) (f : Faults) (id name email : String) (w : World) (db : Db)
    (hrun : dbRun env f w.db name email id = .ok (db, 0)) :
    (putUser env f id name email w).res = ⟨404, .obj [("error", .str "User not found")]⟩ ∧
    (putUser env f id name email w).calls = [.dbRun name email id] ∧
    (putUser env f id name email w).world = w := by
  have hdb : db = w.db := by
    unfold dbRun at hrun
    split at hrun
    · cases hrun
    · injection hrun with hrun
      injection hrun with h1 h2
      rw [← h1]
      exact map_update_eq_self (fun r => env.sqlEq r.id id) _ w.db h2
  subst hdb
  simp [putUser, hrun, userNotFound, errorBody]

/-- Witness for C5: no row answers to `7`. -/
theorem putUser_no_row_witness :
    (putUser sampleEnv Faults.none "7" "Eve" "eve@x.com" seedWorld).res =
      ⟨404, .obj [("error", .str "User not found")]⟩ ∧
    (putUser sampleEnv Faults.none "7" "Eve" "eve@x.com" seedWorld).calls =
      [.dbRun "Eve" "eve@x.com" "7"] ∧
    (putUser sampleEnv Faults.none "7" "Eve" "eve@x.com" seedWorld).world = seedWorld :=
  putUser_no_row sampleEnv Faults.none "7" "Eve" "eve@x.com" seedWorld seedDb rfl

/-- C7: for an id whose row exists, when the `UPDATE` succeeds and the `DEL`
that follows fails, `PUT` still responds 200 with `{id: Number(id), name,
email}` and the row the table returns for the id carries the new values. -/
theorem putUser_del_failure_absorbed (env : Env) (f : Faults) (id name email : String)
    (w : World) (r : Row)
    (hrow : w.db.find? (fun r => env.sqlEq r.id id) = some r)
    (hrun : f.dbRun = false) (hdel : f.redisDel = true) :
    (putUser env f id name email w).res =
      ⟨200, .obj [("id", env.Number id), ("name", .str name), ("email", .str email)]⟩ ∧
    (putUser env f id name email w).calls = [.dbRun name email id, .redisDel (cacheKey id)] ∧
    (putUser env f id name email w).world.db.find? (fun r => env.sqlEq r.id id) =
      some ⟨r.id, name, email⟩ := by
  have hn := countP_ne_zero_of_find? _ _ _ hrow
  have hfind := find?_after_update env w.db name email id r hrow
  simp [putUser, dbRun_eq env f w.db name email id hrun, hn, redisDel, hdel, hfind]

/-- Witness for C7 on the seeded table with the cache delete failing. -/
theorem putUser_del_failure_absorbed_witness :
    (putUser sampleEnv redisDelDown "1" "Alicia" "alicia@x.com" warmWorld).res =
      ⟨200, .obj [("id", sampleEnv.Number "1"), ("name", .str "Alicia"),
        ("email", .str "alicia@x.com")]⟩ ∧
    (putUser sampleEnv redisDelDown "1" "Alicia" "alicia@x.com" warmWorld).calls =
      [.dbRun "Alicia" "alicia@x.com" "1", .redisDel (cacheKey "1")] ∧
    (putUser sampleEnv redisDelDown "1" "Alicia" "alicia@x.com" warmWorld).world.db.find?
        (fun r => sampleEnv.sqlEq r.id "1") = some ⟨alice.id, "Alicia", "alicia@x.com"⟩ :=
  putUser_del_failure_absorbed sampleEnv redisDelDown "1" "Alicia" "alicia@x.com" warmWorld alice
    rfl rfl rfl

/-! ## Failures -/

/-- C6 fails on the code: the row for id 1 exists and the table answers, yet
a failing cache lookup, and likewise a failing cache write after the fetch,
ends in the `catch` block with 500 instead of 200 with the row. -/
theorem getUser_cache_failure_is_500 :
    getUserFromDB sampleEnv redisGetDown seedWorld.db "1" = .ok (some alice) ∧
    (getUser sampleEnv redisGetDown "1" seedWorld).res =
      ⟨500, .obj [("error", .str "Internal Server Error")]⟩ ∧
    (getUser sampleEnv redisGetDown "1" seedWorld).calls = [.redisGet "user:1"] ∧
    getUserFromDB sampleEnv redisSetDown seedWorld.db "1" = .ok (some alice) ∧
    (getUser sampleEnv redisSetDown "1" seedWorld).res =
      ⟨500, .obj [("error", .str "Internal Server Error")]⟩ ∧
    (getUser sampleEnv redisSetDown "1" seedWorld).calls =
      [.redisGet "user:1", .dbGet "1", .redisSet "user:1" (sampleStringify alice.toJs) 60] :=
  ⟨rfl, rfl, by decide, rfl, rfl, by decide⟩

/-- C9: a failing `SELECT` on the read path ends in 500, with no cache write
or delete issued and both stores unchanged; a failing `UPDATE` ends in 500
with the `UPDATE` as the only call and both stores unchanged; and whenever
`PUT` issues a `DEL`, the `UPDATE` has returned before it without error and
with a non-zero row count, the `DEL` being the call right after it. -/
theorem store_failure_propagates (env : Env) (f : Faults) (id name email : String) (w : World) :
    (∀ e, getUserFromDB env f w.db id = .error e →
      Call.dbGet id ∈ (getUser env f id w).calls →
        (getUser env f id w).res = ⟨500, .obj [("error", .str "Internal Server Error")]⟩ ∧
        (getUser env f id w).calls = [.redisGet (cacheKey id), .dbGet id] ∧
        (getUser env f id w).world = w) ∧
    (∀ e, dbRun env f w.db name email id = .error e →
        (putUser env f id name email w).res.status = 500 ∧
        (putUser env f id name email w).calls = [.dbRun name email id] ∧
        (putUser env f id name email w).world = w) ∧
    (∀ key, Call.redisDel key ∈ (putUser env f id name email w).calls →
        (∃ db n, dbRun env f w.db name email id = .ok (db, n) ∧ n ≠ 0 ∧
          (putUser env f id name email w).world.db = db) ∧
        (putUser env f id name email w).calls =
          [.dbRun name email id, .redisDel (cacheKey id)]) := by
  refine ⟨?_, ?_, ?_⟩
  · intro e he
    have hmiss : cacheMiss env f id w =
        ⟨internalServerError, [.redisGet (cacheKey id), .dbGet id], w⟩ := by
      simp [cacheMiss, he]
    unfold getUser
    cases hg : redisGet f w.cache (cacheKey id) with
    | error x => simp
    | ok o =>
      cases o with
      | none => simp [hmiss, internalServerError, errorBody]
      | some v =>
        by_cases hv : v = ""
        · simp [hv, hmiss, internalServerError, errorBody]
        · cases hp : env.parse v with
          | none => simp [hv, hp]
          | some j => simp [hv, hp]
  · intro e he
    simp [putUser, he]
  · intro key
    unfold putUser
    cases hr : dbRun env f w.db name email id with
    | error x => simp
    | ok p =>
      obtain ⟨db, n⟩ := p
      by_cases hn : n = 0
      · simp [hn]
      · cases hd : redisDel f w.cache (cacheKey id) with
        | error x =>
          simp only [hn, if_false]
          intro _
          exact ⟨⟨db, n, rfl, hn, rfl⟩, trivial⟩
        | ok c =>
          simp only [hn, if_false]
          intro _
          exact ⟨⟨db, n, rfl, hn, rfl⟩, trivial⟩

/-- Witness for C9: the seeded table with the `SELECT`, then the `UPDATE`,
failing, and a `PUT` that goes through and issues its `DEL`. -/
theorem store_failure_propagates_witness :
    ((getUser sampleEnv dbGetDown "1" seedWorld).res =
        ⟨500, .obj [("error", .str "Internal Server Error")]⟩ ∧
      (getUser sampleEnv dbGetDown "1" seedWorld).calls = [.redisGet (cacheKey "1"), .dbGet "1"] ∧
      (getUser sampleEnv dbGetDown "1" seedWorld).world = seedWorld) ∧
    ((putUser sampleEnv dbRunDown "1" "Alicia" "alicia@x.com" warmWorld).res.status = 500 ∧
      (putUser sampleEnv dbRunDown "1" "Alicia" "alicia@x.com" warmWorld).calls =
        [.dbRun "Alicia" "alicia@x.com" "1"] ∧
      (putUser sampleEnv dbRunDown "1" "Alicia" "alicia@x.com" warmWorld).world = warmWorld) ∧
    (putUser sampleEnv Faults.none "1" "Alicia" "alicia@x.com" warmWorld).calls =
      [.dbRun "Alicia" "alicia@x.com" "1", .redisDel (cacheKey "1")] :=
  ⟨(store_failure_propagates sampleEnv dbGetDown "1" "Alicia" "alicia@x.com" seedWorld).1
      Err.sqlite rfl (by decide),
   (store_failure_propagates sampleEnv dbRunDown "1" "Alicia" "alicia@x.com" warmWorld).2.1
      Err.sqlite rfl,
   ((store_failure_propagates sampleEnv Faults.none "1" "Alicia" "alicia@x.com" warmWorld).2.2
      "user:1" (by decide)).2⟩

/-! ## Frame -/

/-- C10: the key function is injective; for ids `a ≠ b`, handling `GET` or
`PUT` for `a` leaves the entry under the key of `b` as it was; and `PUT`
issues no cache write, every key after it holding what it held before or
nothing. -/
theorem handlers_touch_own_key (env : Env) (f : Faults) (a b name email : String) (w : World)
    (hab : a ≠ b) :
    Function.Injective cacheKey ∧
    (getUser env f a w).world.cache (cacheKey b) = w.cache (cacheKey b) ∧
    (putUser env f a name email w).world.cache (cacheKey b) = w.cache (cacheKey b) ∧
    (∀ key value ex, Call.redisSet key value ex ∉ (putUser env f a name email w).calls) ∧
    (∀ key, (putUser env f a name email w).world.cache key = w.cache key ∨
      (putUser env f a name email w).world.cache key = Option.none) := by
  refine ⟨cacheKey_injective, ?_, ?_, ?_, ?_⟩
  · rcases getUser_cache env f a w with h | ⟨user, _, h⟩
    · rw [h]
    · rw [h]
      simp [Cache.set, cacheKey_ne hab]
  · rcases putUser_world env f a name email w with h | ⟨_, _, h | h⟩
    · rw [h]
    · rw [h.1]
    · rw [h.1]
      simp [Cache.del, cacheKey_ne hab]
  · intro key value ex
    unfold putUser
    cases hr : dbRun env f w.db name email a with
    | error x => simp
    | ok p =>
      obtain ⟨db, n⟩ := p
      by_cases hn : n = 0
      · simp [hn]
      · cases hd : redisDel f w.cache (cacheKey a) with
        | error x => simp [hn]
        | ok c => simp [hn]
  · intro key
    rcases putUser_world env f a name email w with h | ⟨_, _, h | h⟩
    · left; rw [h]
    · left; rw [h.1]
    · rw [h.1]
      by_cases hk : key = cacheKey a
      · right; simp [Cache.del, hk]
      · left; simp [Cache.del, hk]

/-- Witness for C10: requests for id 2 against a cache holding an entry for
id 1. -/
theorem handlers_touch_own_key_witness :
    "2" ≠ "1" ∧
    (getUser sampleEnv Faults.none "2" warmWorld).world.cache (cacheKey "1") =
      some ⟨sampleStringify alice.toJs, 60⟩ ∧
    (putUser sampleEnv Faults.none "2" "Bobby" "bobby@x.com" warmWorld).world.cache
      (cacheKey "1") = some ⟨sampleStringify alice.toJs, 60⟩ :=
  ⟨by decide,
   (handlers_touch_own_key sampleEnv Faults.none "2" "1" "Bobby" "bobby@x.com" warmWorld
      (by decide)).2.1,
   (handlers_touch_own_key sampleEnv Faults.none "2" "1" "Bobby" "bobby@x.com" warmWorld
      (by decide)).2.2.1⟩

/-! ## Coherence of the cache along sequential runs -/

/-- C8 fails on the code: a read of id 1 fills `user:1`; a write addressed to
the same row as `01` succeeds, updates the row and deletes `user:01` only; the
entry `user:1` is then no longer the serialisation of the row the table
returns for `1`, and the next read of id 1 is a hit that answers 200 with the
pre-write record. -/
theorem aliased_put_leaves_stale_entry :
    (putUser sampleEnv Faults.none "01" "Alicia" "alicia@x.com"
        (getUser sampleEnv Faults.none "1" seedWorld).world).res.status = 200 ∧
    (putUser sampleEnv Faults.none "01" "Alicia" "alicia@x.com"
        (getUser sampleEnv Faults.none "1" seedWorld).world).calls =
      [.dbRun "Alicia" "alicia@x.com" "01", .redisDel "user:01"] ∧
    getUserFromDB sampleEnv Faults.none (run sampleEnv seedWorld aliasedRun).db "1" =
      .ok (some ⟨1, "Alicia", "alicia@x.com"⟩) ∧
    (run sampleEnv seedWorld aliasedRun).cache (cacheKey "1") =
      some ⟨sampleStringify alice.toJs, 60⟩ ∧
    sampleStringify alice.toJs ≠ sampleStringify (Row.toJs ⟨1, "Alicia", "alicia@x.com"⟩) ∧
    (getUser sampleEnv Faults.none "1" (run sampleEnv seedWorld aliasedRun)).calls =
      [.redisGet "user:1"] ∧
    (getUser sampleEnv Faults.none "1" (run sampleEnv seedWorld aliasedRun)).res =
      ⟨200, alice.toJs⟩ ∧
    ¬ Coherent sampleEnv (run sampleEnv seedWorld aliasedRun) := by
  refine ⟨by decide, by decide, rfl, rfl, by decide, by decide, rfl, ?_⟩
  intro h
  obtain ⟨r, hr, he⟩ := h "1" ⟨sampleStringify alice.toJs, 60⟩ rfl
  have hr2 : (run sampleEnv seedWorld aliasedRun).db.find? (fun r => sampleEnv.sqlEq r.id "1") =
      some ⟨1, "Alicia", "alicia@x.com"⟩ := rfl
  rw [hr2] at hr
  injection hr with hr
  subst hr
  revert he
  decide

/-- One event keeps the cache coherent when no row answers to two different
path parameters. -/
theorem step_coherent (env : Env) (hinj : Unaliased env) (w : World) (hw : Coherent env w)
    (q : Req) : Coherent env (step env w q) := by
  cases q with
  | get a =>
    intro id e he
    simp only [step] at he ⊢
    rcases getUser_cache env Faults.none a w with h | ⟨user, hu, h⟩
    · rw [h] at he ⊢
      exact hw id e he
    · rw [h] at he ⊢
      by_cases hid : id = a
      · subst hid
        simp [Cache.set] at he
        exact ⟨user, hu, by rw [← he]⟩
      · have hk : cacheKey id ≠ cacheKey a := fun hk => hid (cacheKey_injective hk)
        simp [Cache.set, hk] at he
        exact hw id e he
  | put a name email =>
    intro id e he
    simp only [step] at he ⊢
    rcases putUser_world env Faults.none a name email w with h | ⟨_, _, h | h⟩
    · rw [h] at he ⊢
      exact hw id e he
    · exact absurd h.2 (by decide)
    · rw [h.1] at he ⊢
      by_cases hid : id = a
      · subst hid
        simp [Cache.del] at he
      · have hk : cacheKey id ≠ cacheKey a := fun hk => hid (cacheKey_injective hk)
        simp [Cache.del, hk] at he
        obtain ⟨r, hr, hv⟩ := hw id e he
        have hrid : env.sqlEq r.id id = true := by simpa using List.find?_some hr
        have hra : env.sqlEq r.id a = false := by
          cases hx : env.sqlEq r.id a with
          | false => rfl
          | true => exact absurd (hinj r.id id a hrid hx) hid
        exact ⟨r, find?_after_other_update env w.db name email a id r hr hra, hv⟩
  | expire key =>
    intro id e he
    simp only [step, Cache.del] at he ⊢
    split at he
    · cases he
    · exact hw id e he

/-- Along every sequential run without failures that starts from an empty
cache, when no row answers to two different path parameters, every present
entry `user:` + id is the serialisation of the row the table currently returns
for id. -/
theorem run_coherent (env : Env) (hinj : Unaliased env) (db : Db) (reqs : List Req) :
    Coherent env (run env ⟨db, Cache.empty⟩ reqs) := by
  have h0 : Coherent env ⟨db, Cache.empty⟩ := by
    intro id e he
    simp [Cache.empty] at he
  have key : ∀ (w : World), Coherent env w → Coherent env (run env w reqs) := by
    induction reqs with
    | nil => intro w hw; exact hw
    | cons q qs ih =>
      intro w hw
      exact ih (step env w q) (step_coherent env hinj w hw q)
  exact key _ h0

/-- In a coherent state, with `JSON.parse` inverting `JSON.stringify` on row
objects, a read answered 200 carries the row the table currently returns for
the id, whether it came from the cache or from the table. -/
theorem coherent_read_is_current (env : Env) (w : World) (hw : Coherent env w)
    (hrt : ∀ r : Row, env.parse (env.stringify r.toJs) = some r.toJs) (id : String)
    (h200 : (getUser env Faults.none id w).res.status = 200) :
    ∃ r, w.db.find? (fun r => env.sqlEq r.id id) = some r ∧
      (getUser env Faults.none id w).res.body = r.toJs := by
  have hmiss : (cacheMiss env Faults.none id w).res.status = 200 →
      ∃ r, w.db.find? (fun r => env.sqlEq r.id id) = some r ∧
        (cacheMiss env Faults.none id w).res.body = r.toJs := by
    unfold cacheMiss getUserFromDB redisSet
    cases hfind : w.db.find? (fun r => env.sqlEq r.id id) with
    | none => simp [Faults.none, userNotFound]
    | some user => simp [Faults.none]
  unfold getUser redisGet at h200 ⊢
  cases hc : w.cache (cacheKey id) with
  | none =>
    simp only [Faults.none, hc] at h200 ⊢
    exact hmiss h200
  | some e =>
    obtain ⟨r, hr, hv⟩ := hw id e hc
    by_cases he : e.value = ""
    · simp [Faults.none, hc, he] at h200 ⊢
      exact hmiss h200
    · refine ⟨r, hr, ?_⟩
      have hp : env.parse e.value = some r.toJs := by rw [hv]; exact hrt r
      simp [Faults.none, hc, he, hp]

end Caching
